import Mathlib

/-!
Verification of the fuzzy-match profile-resolution engine of
aws-profile-switch.

The embedding mirrors, function by function, the Python source:
  * `models.py`   : `SSOProfile`
  * `search.py`   : `FuzzySearcher.search_accounts`, `FuzzySearcher.search_roles`,
                    `FuzzySearcher.get_best_match`
  * `ui.py`       : `ProfileSelector.search_accounts_with_history` /
                    `ProfileSelector.search_accounts` (shared post-prompt decision
                    logic), `ProfileSelector.search_roles`,
                    `ProfileSelector.select_profile`
  * `core.py`     : `AWSProfileSwitcher.run`

Modelling conventions:
  * Python strings are Lean `String`s; the Python primitives `str.strip`,
    `str.isdigit` and `int(...)` are re-implemented over `String.data`
    (`pyStrip`, `pyIsDigit`, `pyInt`) so concrete instances evaluate in the
    kernel.
  * `fuzz.WRatio` is an external library function (the spec abstracts it as
    `SimilarityScorer`); every definition is parameterised by an abstract
    `Scorer : String → String → Nat`.  Concrete theorems instantiate it with
    small table scorers that realise documented WRatio behaviour (for example
    `WRatio` is case-insensitive after `full_process`, so a case variant of the
    query scores 100).
  * `fuzzywuzzy.process.extract(query, choices, scorer, limit)` scores every
    choice in choice order and returns `heapq.nlargest(limit, ...)`, which is
    documented to equal `sorted(..., reverse=True)[:limit]` — a stable
    descending sort followed by truncation.  We model the stable descending
    sort by insertion (`sortDesc`).  `process.extractOne` (no score cutoff) is
    Python's `max(..., key=score)`, which keeps the first maximum (`pyMax`).
  * Python's `list(set(xs))` deduplicates with an unspecified iteration order;
    we model it keeping first occurrences (`dedupFirst`).  Theorems that would
    be sensitive to that order either quantify over the candidate list
    explicitly or use candidates with pairwise distinct scores.
  * Interactive prompts are modelled by passing the text the user submits as
    explicit arguments; `KeyboardInterrupt`/`EOFError` cancellation paths
    (which return `None`) are outside the modelled inputs.
-/

namespace AwsProfileSwitch

/-- Models `models.py` `SSOProfile`: profile record with the five required
fields and the optional region. -/
structure SSOProfile where
  profile_name : String
  sso_account_name : String
  sso_account_id : String
  sso_role_name : String
  sso_start_url : String
  sso_region : Option String
deriving DecidableEq

/-- Abstract similarity scorer standing for the external `fuzz.WRatio`
(the spec's `SimilarityScorer`): total function from query and candidate to a
score. -/
def Scorer : Type := String → String → Nat

/-- Models Python `str.strip()`: drop whitespace from both ends. -/
def pyStrip (s : String) : String :=
  ⟨((s.data.dropWhile Char.isWhitespace).reverse.dropWhile Char.isWhitespace).reverse⟩

/-- Models Python `str.isdigit()`: non-empty and all digit characters. -/
def pyIsDigit (s : String) : Bool :=
  !s.data.isEmpty && s.data.all Char.isDigit

/-- Models Python `int(...)` on a digit string. -/
def pyInt (s : String) : Nat :=
  s.data.foldl (fun n c => 10 * n + (c.toNat - 48)) 0

/-- Insert a scored candidate into a score-descending list, before the first
element whose score is not larger; this is the insertion step of a stable
descending sort. -/
def insertDesc (x : String × Nat) : List (String × Nat) → List (String × Nat)
  | [] => [x]
  | y :: ys => if y.2 ≤ x.2 then x :: y :: ys else y :: insertDesc x ys

/-- Stable descending sort by score, modelling
`sorted(..., key=score, reverse=True)` (equivalently `heapq.nlargest`). -/
def sortDesc : List (String × Nat) → List (String × Nat)
  | [] => []
  | x :: xs => insertDesc x (sortDesc xs)

/-- Deduplication helper carrying the set of already seen strings. -/
def dedupFirstAux (seen : List String) : List String → List String
  | [] => []
  | x :: xs => if x ∈ seen then dedupFirstAux seen xs else x :: dedupFirstAux (x :: seen) xs

/-- Models Python `list(set(xs))`: distinct elements; we fix first-occurrence
order (Python's set iteration order is unspecified). -/
def dedupFirst (l : List String) : List String :=
  dedupFirstAux [] l

/-- Models `fuzzywuzzy.process.extract(query, choices, scorer=..., limit=...)`:
score every choice in choice order, stable-sort descending by score, truncate
to `limit`. -/
def extract (scorer : Scorer) (query : String) (choices : List String) (limit : Nat) :
    List (String × Nat) :=
  (sortDesc (choices.map (fun c => (c, scorer query c)))).take limit

/-- The shared tail of `search_accounts` / `search_roles` (search.py): extract,
keep only matches with score strictly above 30, return the names. -/
def extractFiltered (scorer : Scorer) (query : String) (choices : List String) (limit : Nat) :
    List String :=
  ((extract scorer query choices limit).filter (fun m => 30 < m.2)).map (fun m => m.1)

/-- Models `search.py` `FuzzySearcher.search_accounts` (lines 16-33): empty
trimmed query gives `[]`; otherwise fuzzy-extract over the deduplicated account
names and keep scores above 30. -/
def FuzzySearcher.search_accounts (scorer : Scorer) (profiles : List SSOProfile)
    (query : String) (limit : Nat) : List String :=
  if pyStrip query = "" then []
  else extractFiltered scorer query (dedupFirst (profiles.map (fun p => p.sso_account_name))) limit

/-- The roles of every profile of the given account, in catalog order
(the list comprehension in `search.py` lines 40-45). -/
def rolesForAccount (profiles : List SSOProfile) (account_name : String) : List String :=
  (profiles.filter (fun p => p.sso_account_name = account_name)).map (fun p => p.sso_role_name)

/-- Models `search.py` `FuzzySearcher.search_roles` (lines 35-59): empty trimmed
query gives `[]`; otherwise fuzzy-extract over the deduplicated roles of the
account and keep scores above 30. -/
def FuzzySearcher.search_roles (scorer : Scorer) (profiles : List SSOProfile)
    (query : String) (account_name : String) (limit : Nat) : List String :=
  if pyStrip query = "" then []
  else extractFiltered scorer query (dedupFirst (rolesForAccount profiles account_name)) limit

/-- Models Python `max(..., key=lambda i: i[1])` over a non-empty scored list,
as used by `process.extractOne`: fold keeping the strictly greater score, so
the first maximum wins ties. -/
def pyMax (x : String × Nat) (l : List (String × Nat)) : String × Nat :=
  l.foldl (fun acc y => if acc.2 < y.2 then y else acc) x

/-- Models `search.py` `FuzzySearcher.get_best_match` (lines 90-101): sentinel
`("", 0)` for an empty trimmed query or empty candidate list, otherwise
`process.extractOne` with no score cutoff, i.e. the first maximum-score
candidate. -/
def FuzzySearcher.get_best_match (scorer : Scorer) (query : String)
    (candidates : List String) : String × Nat :=
  if pyStrip query = "" then ("", 0)
  else
    match candidates.map (fun c => (c, scorer query c)) with
    | [] => ("", 0)
    | x :: xs => pyMax x xs

/-- Lexicographic strictly-less on character lists (code-point order), used to
model Python `sorted` on strings. -/
def lexLt : List Char → List Char → Bool
  | [], [] => false
  | [], _ :: _ => true
  | _ :: _, [] => false
  | a :: as, b :: bs => if a < b then true else if b < a then false else lexLt as bs

/-- Insertion step of the ascending string sort. -/
def insertStr (x : String) : List String → List String
  | [] => [x]
  | y :: ys => if lexLt x.data y.data then x :: y :: ys else y :: insertStr x ys

/-- Models Python `sorted` on a list of strings (ascending, stable). -/
def sortStr : List String → List String
  | [] => []
  | x :: xs => insertStr x (sortStr xs)

/-- The deduplicated account-name candidate set of the account stage,
`set(profile.sso_account_name for profile in self.profiles)` in ui.py. -/
def uniqueAccountNames (profiles : List SSOProfile) : List String :=
  dedupFirst (profiles.map (fun p => p.sso_account_name))

/-- The sorted unique role list of the role stage,
`sorted(list(set([...])))` in ui.py `search_roles`. -/
def availableRoles (profiles : List SSOProfile) (account_name : String) : List String :=
  sortStr (dedupFirst (rolesForAccount profiles account_name))

/-- The disambiguation branch shared by `ProfileSelector.search_accounts_with_history`
(ui.py lines 236-257) and `ProfileSelector.search_accounts` (lines 310-331):
rank with the DEFAULT limit 10, then accept a 1-based numeric index into the
full ranked list, or a second non-empty free-text query whose best match over
the full ranked list scores above 50. -/
def accountDisambig (scorer : Scorer) (profiles : List SSOProfile)
    (result : String) (choice : String) : Option String :=
  let matchList := FuzzySearcher.search_accounts scorer profiles result 10
  if matchList.isEmpty then none
  else
    let c := pyStrip choice
    if pyIsDigit c then
      if 1 ≤ pyInt c ∧ pyInt c ≤ matchList.length then matchList.get? (pyInt c - 1) else none
    else if c = "" then none
    else
      let bm := FuzzySearcher.get_best_match scorer c matchList
      if 50 < bm.2 then some bm.1 else none

/-- Models the decision logic of `ui.py` `ProfileSelector.search_accounts_with_history`
(lines 216-258) after the Account prompt returns — identical to the logic of
`ProfileSelector.search_accounts` (lines 290-332).  `raw` is the text submitted
at the Account prompt (stripped here, as in the source), `choice` the text
submitted at the `Select number or type account name` prompt, consulted only on
the disambiguation branch. -/
def ProfileSelector.account_stage (scorer : Scorer) (profiles : List SSOProfile)
    (raw : String) (choice : String) : Option String :=
  let result := pyStrip raw
  if result = "" then none
  else if result ∈ uniqueAccountNames profiles then some result
  else
    let bm := FuzzySearcher.get_best_match scorer result (uniqueAccountNames profiles)
    if 70 < bm.2 then some bm.1
    else accountDisambig scorer profiles result choice

/-- The disambiguation branch of `ProfileSelector.search_roles`
(ui.py lines 410-430): rank with the default limit 10 (the full list is
presented), then accept a 1-based numeric index into it, or a second non-empty
free-text query whose best match over the ranked list scores above 50. -/
def roleDisambig (scorer : Scorer) (profiles : List SSOProfile)
    (account_name : String) (result : String) (choice : String) : Option String :=
  let matchList := FuzzySearcher.search_roles scorer profiles result account_name 10
  if matchList.isEmpty then none
  else
    let c := pyStrip choice
    if pyIsDigit c then
      if 1 ≤ pyInt c ∧ pyInt c ≤ matchList.length then matchList.get? (pyInt c - 1) else none
    else if c = "" then none
    else
      let bm := FuzzySearcher.get_best_match scorer c matchList
      if 50 < bm.2 then some bm.1 else none

/-- Models the decision logic of `ui.py` `ProfileSelector.search_roles`
(lines 335-434) after the Role prompt returns.  `raw` is the text submitted at
the Role prompt, `choice` the disambiguation-prompt text. -/
def ProfileSelector.role_stage (scorer : Scorer) (profiles : List SSOProfile)
    (account_name : String) (raw : String) (choice : String) : Option String :=
  let role_name := pyStrip raw
  if role_name = "" then none
  else if role_name ∈ availableRoles profiles account_name then some role_name
  else
    let bm := FuzzySearcher.get_best_match scorer role_name (availableRoles profiles account_name)
    if 70 < bm.2 then some bm.1
    else roleDisambig scorer profiles account_name role_name choice

/-- The `matching_profiles` list comprehension of `ui.py` `select_profile`
(lines 439-442): exact filter by account and role, catalog order preserved. -/
def matchingProfiles (profiles : List SSOProfile) (account_name role_name : String) :
    List SSOProfile :=
  profiles.filter (fun p => p.sso_account_name = account_name && p.sso_role_name = role_name)

/-- Models `ui.py` `ProfileSelector.select_profile` (lines 437-465): filter the
catalog by exact account and role; zero matches gives `none`, one match
auto-resolves, several matches consult the numeric `Select number` prompt
(`choice`), where any non-digit or out-of-range input gives `none`. -/
def ProfileSelector.select_profile (profiles : List SSOProfile)
    (account_name : String) (role_name : String) (choice : String) : Option String :=
  let matching := matchingProfiles profiles account_name role_name
  match matching with
  | [] => none
  | [p] => some p.profile_name
  | _ :: _ :: _ =>
    let c := pyStrip choice
    if pyIsDigit c then
      if 1 ≤ pyInt c ∧ pyInt c ≤ matching.length then
        (matching.get? (pyInt c - 1)).map (fun p => p.profile_name)
      else none
    else none

/-- Models the construction of `valid_recent` in
`ProfileSelector.search_accounts_with_history` (ui.py lines 146-152): take at
most 5 recent profile names, drop those with no profile in the catalog, pair
each survivor with its profile's account name. -/
def validRecent (profiles : List SSOProfile) (recent : List String) :
    List (String × String) :=
  (recent.take 5).filterMap
    (fun name => (profiles.find? (fun p => p.profile_name = name)).map
      (fun p => (name, p.sso_account_name)))

/-- How the text submitted at the Account prompt arises: either typed free
text, or the arrow-key history selection (ui.py lines 159-178), which writes
the ACCOUNT name of the i-th valid recent profile into the buffer. -/
inductive AccountEntry where
  | typed (text : String)
  | history (i : Nat)
deriving DecidableEq

/-- The buffer contents submitted at the Account prompt for a given entry
method. -/
def submittedAccountText (profiles : List SSOProfile) (recent : List String) :
    AccountEntry → String
  | .typed t => t
  | .history i => (((validRecent profiles recent).get? i).map (fun pr => pr.2)).getD ""

/-- Models `exceptions.py`: the application error relevant to the pipeline
entry (`NoSSOProfilesFoundError`). -/
inductive AwsError where
  | noSSOProfilesFound
deriving DecidableEq

/-- The interactive inputs a full run consumes, one per blocking prompt. -/
structure RunInputs where
  accountEntry : AccountEntry
  accountChoice : String
  roleText : String
  roleChoice : String
  profileChoice : String
deriving DecidableEq

/-- The three chained stages of `core.py` `AWSProfileSwitcher.run` (lines
44-59) after profile loading: account stage, then role stage — called with the
account name only, no initial query — then profile selection. -/
def sessionPipeline (scorer : Scorer) (profiles : List SSOProfile)
    (recent : List String) (inp : RunInputs) : Option String :=
  match ProfileSelector.account_stage scorer profiles
      (submittedAccountText profiles recent inp.accountEntry) inp.accountChoice with
  | none => none
  | some account_name =>
    match ProfileSelector.role_stage scorer profiles account_name inp.roleText inp.roleChoice with
    | none => none
    | some role_name =>
      ProfileSelector.select_profile profiles account_name role_name inp.profileChoice

/-- Models `core.py` `AWSProfileSwitcher.run` together with `_load_profiles`
(lines 24-63): an empty parsed catalog raises `NoSSOProfilesFoundError` before
any stage runs; otherwise the three-stage pipeline produces an optional profile
name (`none` is user cancellation at some stage). -/
def AWSProfileSwitcher.run (scorer : Scorer) (parsed : List SSOProfile)
    (recent : List String) (inp : RunInputs) : Except AwsError (Option String) :=
  if parsed.isEmpty then .error .noSSOProfilesFound
  else .ok (sessionPipeline scorer parsed recent inp)

/-- Concrete scorer realising fuzz.WRatio's documented case-insensitive
behaviour on the strings of the decoy counterexample: WRatio lowercases via
full_process, so both the decoy "ABC" and the identical "abc" score 100
against the query "abc". -/
def decoyScorer : Scorer := fun q c =>
  if q = "abc" ∧ (c = "ABC" ∨ c = "abc") then 100 else 0

/-- Scorer for the disambiguation counterexample: six distinct scores 69..64,
none above 70, all above 30, order-independent because pairwise distinct. -/
def c4scorer : Scorer := fun _ c =>
  if c = "a1" then 69 else if c = "a2" then 68 else if c = "a3" then 67
  else if c = "a4" then 66 else if c = "a5" then 65 else if c = "a6" then 64 else 0

/-- Catalog for the disambiguation counterexample: six accounts a1..a6. -/
def c4profiles : List SSOProfile :=
  [⟨"p1", "a1", "1", "R", "u", none⟩, ⟨"p2", "a2", "2", "R", "u", none⟩,
   ⟨"p3", "a3", "3", "R", "u", none⟩, ⟨"p4", "a4", "4", "R", "u", none⟩,
   ⟨"p5", "a5", "5", "R", "u", none⟩, ⟨"p6", "a6", "6", "R", "u", none⟩]

/-- Catalog profile used in the history-seeding instances. -/
def devAdmin : SSOProfile :=
  ⟨"dev-admin", "Development Account", "123456789012", "AdministratorAccess",
   "https://example.awsapps.com/start", none⟩

/-! Lemmas about the stable descending sort. -/

theorem mem_insertDesc {x a : String × Nat} {l : List (String × Nat)} :
    a ∈ insertDesc x l ↔ a = x ∨ a ∈ l := by
  induction l with
  | nil => simp [insertDesc]
  | cons y ys ih =>
    by_cases hxy : y.2 ≤ x.2
    · simp only [insertDesc, if_pos hxy, List.mem_cons]
    · simp only [insertDesc, if_neg hxy, List.mem_cons, ih]
      tauto

theorem insertDesc_perm (x : String × Nat) (l : List (String × Nat)) :
    (insertDesc x l).Perm (x :: l) := by
  induction l with
  | nil => exact List.Perm.refl _
  | cons y ys ih =>
    by_cases hxy : y.2 ≤ x.2
    · simp only [insertDesc, if_pos hxy]
      exact List.Perm.refl _
    · simp only [insertDesc, if_neg hxy]
      exact (List.Perm.cons y ih).trans (List.Perm.swap x y ys)

theorem sortDesc_perm (l : List (String × Nat)) : (sortDesc l).Perm l := by
  induction l with
  | nil => exact List.Perm.refl _
  | cons x xs ih => exact (insertDesc_perm x (sortDesc xs)).trans (List.Perm.cons x ih)

theorem insertDesc_pairwise {x : String × Nat} {l : List (String × Nat)}
    (h : l.Pairwise (fun a b => b.2 ≤ a.2)) :
    (insertDesc x l).Pairwise (fun a b => b.2 ≤ a.2) := by
  induction l with
  | nil => simp [insertDesc]
  | cons y ys ih =>
    rcases List.pairwise_cons.mp h with ⟨hy, hys⟩
    by_cases hxy : y.2 ≤ x.2
    · simp only [insertDesc, if_pos hxy]
      refine List.pairwise_cons.mpr ⟨?_, h⟩
      intro b hb
      rcases List.mem_cons.mp hb with rfl | hb
      · exact hxy
      · exact le_trans (hy b hb) hxy
    · simp only [insertDesc, if_neg hxy]
      refine List.pairwise_cons.mpr ⟨?_, ih hys⟩
      intro b hb
      rcases mem_insertDesc.mp hb with rfl | hb
      · omega
      · exact hy b hb

theorem sortDesc_pairwise (l : List (String × Nat)) :
    (sortDesc l).Pairwise (fun a b => b.2 ≤ a.2) := by
  induction l with
  | nil => simp [sortDesc]
  | cons x xs ih => exact insertDesc_pairwise ih

theorem filter_insertDesc_pos {x : String × Nat} {s : Nat} (hx : x.2 = s)
    (l : List (String × Nat)) :
    (insertDesc x l).filter (fun p => p.2 = s) = x :: l.filter (fun p => p.2 = s) := by
  induction l with
  | nil => simp [insertDesc, hx]
  | cons y ys ih =>
    by_cases hxy : y.2 ≤ x.2
    · simp only [insertDesc, if_pos hxy]
      simp [List.filter_cons, hx]
    · have hy : ¬ (y.2 = s) := by omega
      simp only [insertDesc, if_neg hxy]
      simp [List.filter_cons, hy, ih]

theorem filter_insertDesc_neg {x : String × Nat} {s : Nat} (hx : ¬ x.2 = s)
    (l : List (String × Nat)) :
    (insertDesc x l).filter (fun p => p.2 = s) = l.filter (fun p => p.2 = s) := by
  induction l with
  | nil => simp [insertDesc, hx]
  | cons y ys ih =>
    by_cases hxy : y.2 ≤ x.2
    · simp only [insertDesc, if_pos hxy]
      simp [List.filter_cons, hx]
    · simp only [insertDesc, if_neg hxy]
      simp [List.filter_cons, ih]

theorem sortDesc_stable (l : List (String × Nat)) (s : Nat) :
    (sortDesc l).filter (fun p => p.2 = s) = l.filter (fun p => p.2 = s) := by
  induction l with
  | nil => rfl
  | cons x xs ih =>
    by_cases hx : x.2 = s
    · rw [sortDesc, filter_insertDesc_pos hx, ih, List.filter_cons]
      simp [hx]
    · rw [sortDesc, filter_insertDesc_neg hx, ih, List.filter_cons]
      simp [hx]

/-- Every pair the sort works on carries the score of its own name. -/
theorem mem_sortDesc_scored {scorer : Scorer} {q : String} {cands : List String}
    {m : String × Nat}
    (hm : m ∈ sortDesc (cands.map (fun c => (c, scorer q c)))) : m.2 = scorer q m.1 := by
  have hm' := (sortDesc_perm _).mem_iff.mp hm
  rcases List.mem_map.mp hm' with ⟨c, _, rfl⟩
  rfl

/-- Core property of the shared ranking tail: at most `limit` results, every
result scores above 30, results sorted by non-increasing score. -/
theorem extractFiltered_spec (scorer : Scorer) (q : String) (cands : List String)
    (limit : Nat) :
    (extractFiltered scorer q cands limit).length ≤ limit ∧
    (∀ n ∈ extractFiltered scorer q cands limit, 30 < scorer q n) ∧
    (extractFiltered scorer q cands limit).Pairwise
      (fun a b => scorer q b ≤ scorer q a) := by
  have hsub : List.Sublist
      ((extract scorer q cands limit).filter (fun m => 30 < m.2))
      (sortDesc (cands.map (fun c => (c, scorer q c)))) :=
    (List.filter_sublist _).trans (List.take_sublist _ _)
  refine ⟨?_, ?_, ?_⟩
  · calc (extractFiltered scorer q cands limit).length
        = ((extract scorer q cands limit).filter (fun m => 30 < m.2)).length := by
          simp [extractFiltered]
      _ ≤ (extract scorer q cands limit).length := List.length_filter_le _ _
      _ ≤ limit := List.length_take_le _ _
  · intro n hn
    rcases List.mem_map.mp hn with ⟨m, hm, rfl⟩
    have hm30 : 30 < m.2 := by
      have := List.mem_filter.mp hm
      simpa using this.2
    have hms : m.2 = scorer q m.1 := mem_sortDesc_scored (hsub.subset hm)
    omega
  · have hpw : ((extract scorer q cands limit).filter (fun m => 30 < m.2)).Pairwise
        (fun a b => b.2 ≤ a.2) :=
      List.Pairwise.sublist hsub (sortDesc_pairwise _)
    refine List.pairwise_map.mpr ?_
    refine List.Pairwise.imp_of_mem ?_ hpw
    intro a b ha hb hab
    have hsa : a.2 = scorer q a.1 := mem_sortDesc_scored (hsub.subset ha)
    have hsb : b.2 = scorer q b.1 := mem_sortDesc_scored (hsub.subset hb)
    omega

/-- C2: for every query, candidate set and limit, `search_accounts` and
`search_roles` return at most `limit` entries, every returned entry scores
strictly above 30 (a score of exactly 30 is excluded by the strict filter), and
the entries are sorted in non-increasing score order. -/
theorem search_results_bounded_floored_sorted (scorer : Scorer)
    (profiles : List SSOProfile) (q account : String) (limit : Nat) :
    ((FuzzySearcher.search_accounts scorer profiles q limit).length ≤ limit ∧
      (∀ n ∈ FuzzySearcher.search_accounts scorer profiles q limit, 30 < scorer q n) ∧
      (FuzzySearcher.search_accounts scorer profiles q limit).Pairwise
        (fun a b => scorer q b ≤ scorer q a)) ∧
    ((FuzzySearcher.search_roles scorer profiles q account limit).length ≤ limit ∧
      (∀ n ∈ FuzzySearcher.search_roles scorer profiles q account limit, 30 < scorer q n) ∧
      (FuzzySearcher.search_roles scorer profiles q account limit).Pairwise
        (fun a b => scorer q b ≤ scorer q a)) := by
  constructor
  · by_cases hq : pyStrip q = ""
    · simp [FuzzySearcher.search_accounts, hq]
    · simpa [FuzzySearcher.search_accounts, hq] using
        extractFiltered_spec scorer q
          (dedupFirst (profiles.map (fun p => p.sso_account_name))) limit
  · by_cases hq : pyStrip q = ""
    · simp [FuzzySearcher.search_roles, hq]
    · simpa [FuzzySearcher.search_roles, hq] using
        extractFiltered_spec scorer q
          (dedupFirst (rolesForAccount profiles account)) limit

/-- Witness for `search_results_bounded_floored_sorted`: the bound at a
concrete six-account catalog and limit 3, with concrete member scores. -/
theorem search_results_bounded_floored_sorted_witness :
    (FuzzySearcher.search_accounts c4scorer c4profiles "qq" 3).length ≤ 3 ∧
    (∀ n ∈ FuzzySearcher.search_accounts c4scorer c4profiles "qq" 3, 30 < c4scorer "qq" n) := by
  have h := search_results_bounded_floored_sorted c4scorer c4profiles "qq" "acc" 3
  exact ⟨h.1.1, h.1.2.1⟩

/-- C9: an empty or whitespace-only query makes `search_accounts`,
`search_roles` return `[]` and `get_best_match` return the sentinel `("", 0)`;
an empty candidate base (empty catalog, empty candidate list) does the same;
all functions are total, so no error is ever raised. -/
theorem empty_query_empty_candidates (scorer : Scorer) (profiles : List SSOProfile)
    (q account : String) (limit : Nat) (cands : List String) :
    (pyStrip q = "" →
      FuzzySearcher.search_accounts scorer profiles q limit = [] ∧
      FuzzySearcher.search_roles scorer profiles q account limit = [] ∧
      FuzzySearcher.get_best_match scorer q cands = ("", 0)) ∧
    FuzzySearcher.search_accounts scorer [] q limit = [] ∧
    FuzzySearcher.search_roles scorer [] q account limit = [] ∧
    FuzzySearcher.get_best_match scorer q [] = ("", 0) := by
  refine ⟨fun hq => ⟨?_, ?_, ?_⟩, ?_, ?_, ?_⟩
  · simp [FuzzySearcher.search_accounts, hq]
  · simp [FuzzySearcher.search_roles, hq]
  · simp [FuzzySearcher.get_best_match, hq]
  · by_cases hq : pyStrip q = "" <;>
      simp [FuzzySearcher.search_accounts, hq, extractFiltered, extract, dedupFirst,
        dedupFirstAux, sortDesc]
  · by_cases hq : pyStrip q = "" <;>
      simp [FuzzySearcher.search_roles, hq, rolesForAccount, extractFiltered, extract,
        dedupFirst, dedupFirstAux, sortDesc]
  · by_cases hq : pyStrip q = "" <;> simp [FuzzySearcher.get_best_match, hq]

/-- Witness for `empty_query_empty_candidates`: evaluation at a whitespace
query, a one-profile catalog and concrete candidates. -/
theorem empty_query_empty_candidates_witness :
    FuzzySearcher.search_accounts (fun _ _ => 100)
      [⟨"p", "A", "1", "R", "u", none⟩] "   " 10 = [] ∧
    FuzzySearcher.get_best_match (fun _ _ => 100) "   " ["A"] = ("", 0) ∧
    FuzzySearcher.get_best_match (fun _ _ => 100) "query" [] = ("", 0) := by
  have h := empty_query_empty_candidates (fun _ _ => 100)
    [⟨"p", "A", "1", "R", "u", none⟩] "   " "A" 10 ["A"]
  exact ⟨(h.1 (by decide)).1, (h.1 (by decide)).2.2, (empty_query_empty_candidates
    (fun _ _ => 100) [⟨"p", "A", "1", "R", "u", none⟩] "query" "A" 10 []).2.2.2⟩

/-! Lemmas connecting `pyMax` (the `extractOne` maximum) with the head of the
stable descending sort. -/

theorem headD_insertDesc_cons (a b : String × Nat) (bs : List (String × Nat))
    (d : String × Nat) :
    (insertDesc a (b :: bs)).headD d = if b.2 ≤ a.2 then a else b := by
  by_cases h : b.2 ≤ a.2 <;> simp [insertDesc, h]

theorem headD_insertDesc_insertDesc (x y : String × Nat) (m : List (String × Nat)) :
    (insertDesc (if x.2 < y.2 then y else x) m).headD ("", 0)
      = (insertDesc x (insertDesc y m)).headD ("", 0) := by
  cases m with
  | nil =>
    rcases Nat.lt_or_ge x.2 y.2 with h | h
    · have h' : ¬ y.2 ≤ x.2 := by omega
      simp [insertDesc, if_pos h, h']
    · have h1 : ¬ x.2 < y.2 := by omega
      simp [insertDesc, h1, h]
  | cons b bs =>
    rcases Nat.lt_or_ge x.2 y.2 with h | h
    · rw [if_pos h, headD_insertDesc_cons]
      by_cases h2 : b.2 ≤ y.2
      · have h3 : ¬ y.2 ≤ x.2 := by omega
        rw [show insertDesc y (b :: bs) = y :: b :: bs from by simp [insertDesc, h2]]
        rw [headD_insertDesc_cons]
        simp [h3, h2]
      · rw [show insertDesc y (b :: bs) = b :: insertDesc y bs from by
          simp [insertDesc, h2]]
        rw [headD_insertDesc_cons]
        have h4 : ¬ b.2 ≤ x.2 := by omega
        simp [h2, h4]
    · rw [if_neg (by omega), headD_insertDesc_cons]
      by_cases h2 : b.2 ≤ y.2
      · rw [show insertDesc y (b :: bs) = y :: b :: bs from by simp [insertDesc, h2]]
        rw [headD_insertDesc_cons]
        have h4 : b.2 ≤ x.2 := by omega
        simp [h, h4]
      · rw [show insertDesc y (b :: bs) = b :: insertDesc y bs from by
          simp [insertDesc, h2]]
        rw [headD_insertDesc_cons]

theorem pyMax_eq_head_sortDesc (x : String × Nat) (xs : List (String × Nat)) :
    pyMax x xs = (sortDesc (x :: xs)).headD ("", 0) := by
  induction xs generalizing x with
  | nil => rfl
  | cons y t ih =>
    have h1 : pyMax x (y :: t) = pyMax (if x.2 < y.2 then y else x) t := by
      simp [pyMax]
    rw [h1, ih]
    show _ = (sortDesc (x :: y :: t)).headD ("", 0)
    simp only [sortDesc]
    exact headD_insertDesc_insertDesc x y (sortDesc t)

/-- For a non-empty trimmed query and non-empty candidates, `get_best_match`
is the head of the stable descending sort of the scored candidates. -/
theorem get_best_match_eq_head (scorer : Scorer) (q c : String) (cs : List String)
    (hq : ¬ pyStrip q = "") :
    FuzzySearcher.get_best_match scorer q (c :: cs)
      = (sortDesc ((c :: cs).map (fun x => (x, scorer q x)))).headD ("", 0) := by
  simp only [FuzzySearcher.get_best_match, if_neg hq, List.map_cons]
  exact pyMax_eq_head_sortDesc _ _

/-- C7 corrected: for a non-empty trimmed query and non-empty candidates,
`get_best_match` returns the head of the score-descending stable sort of ALL
scored candidates, applying no score floor; it agrees with the ranked
floor-filtered list at limit 1 exactly when the best score exceeds 30, and when
the best score is at most 30 the ranked list is empty while `get_best_match`
still returns that low-scoring candidate. -/
theorem bestMatch_head_no_floor (scorer : Scorer) (q c : String) (cs : List String)
    (hq : ¬ pyStrip q = "") :
    (30 < (FuzzySearcher.get_best_match scorer q (c :: cs)).2 →
      extractFiltered scorer q (c :: cs) 1
        = [(FuzzySearcher.get_best_match scorer q (c :: cs)).1]) ∧
    ((FuzzySearcher.get_best_match scorer q (c :: cs)).2 ≤ 30 →
      extractFiltered scorer q (c :: cs) 1 = []) ∧
    FuzzySearcher.get_best_match scorer q (c :: cs)
      = (sortDesc ((c :: cs).map (fun x => (x, scorer q x)))).headD ("", 0) := by
  have hchar := get_best_match_eq_head scorer q c cs hq
  have hne : sortDesc ((c :: cs).map (fun x => (x, scorer q x))) ≠ [] := by
    intro h0
    have hp := sortDesc_perm ((c :: cs).map (fun x => (x, scorer q x)))
    rw [h0] at hp
    have := hp.length_eq
    simp at this
  obtain ⟨hd, tl, hL⟩ := List.exists_cons_of_ne_nil hne
  have hbm : FuzzySearcher.get_best_match scorer q (c :: cs) = hd := by
    rw [hchar, hL]
    rfl
  refine ⟨?_, ?_, hchar⟩
  · intro h30
    rw [hbm] at h30
    rw [hbm]
    simp only [extractFiltered, extract]
    rw [hL]
    simp [h30]
  · intro h30
    rw [hbm] at h30
    have h30' : ¬ 30 < hd.2 := by omega
    simp only [extractFiltered, extract]
    rw [hL]
    simp [h30']

/-- Witness for `bestMatch_head_no_floor`: with a scorer giving scores 80 and
20, the best match is the 80-scoring candidate and equals the singleton ranked
list. -/
theorem bestMatch_head_no_floor_witness :
    FuzzySearcher.get_best_match (fun _ c => if c = "hit" then 80 else 20)
      "query" ["miss", "hit"] = ("hit", 80) ∧
    extractFiltered (fun _ c => if c = "hit" then 80 else 20) "query"
      ["miss", "hit"] 1 = ["hit"] := by
  have h := bestMatch_head_no_floor (fun _ c => if c = "hit" then 80 else 20)
    "query" "miss" ["hit"] (by decide)
  have hbm : FuzzySearcher.get_best_match (fun _ c => if c = "hit" then 80 else 20)
      "query" ["miss", "hit"] = ("hit", 80) := by decide
  exact ⟨hbm, by simpa [hbm] using h.1 (by rw [hbm]; decide)⟩

/-- C7 counterexample: `get_best_match` applies NO 30-point floor — with a
scorer giving every candidate score 0, it returns `("abc", 0)` (a candidate at
score 0, well below the floor), while the ranked floor-filtered list at limit 1
over the same sole candidate is empty. -/
theorem bestMatch_floor_counterexample :
    FuzzySearcher.get_best_match (fun _ _ => 0) "query" ["abc"] = ("abc", 0) ∧
    FuzzySearcher.search_accounts (fun _ _ => 0)
      [⟨"p", "abc", "1", "R", "u", none⟩] "query" 1 = [] := by
  constructor <;> decide

/-! Membership lemmas for the deduplication and string sort used by the
interactive stages. -/

theorem mem_dedupFirstAux {a : String} {seen l : List String} :
    a ∈ dedupFirstAux seen l ↔ a ∈ l ∧ a ∉ seen := by
  induction l generalizing seen with
  | nil => simp [dedupFirstAux]
  | cons x xs ih =>
    by_cases hx : x ∈ seen
    · simp only [dedupFirstAux, if_pos hx, ih, List.mem_cons]
      constructor
      · rintro ⟨h1, h2⟩
        exact ⟨Or.inr h1, h2⟩
      · rintro ⟨rfl | h1, h2⟩
        · exact absurd hx h2
        · exact ⟨h1, h2⟩
    · simp only [dedupFirstAux, if_neg hx, List.mem_cons, ih]
      constructor
      · rintro (rfl | ⟨h1, h2⟩)
        · exact ⟨Or.inl rfl, hx⟩
        · push_neg at h2
          exact ⟨Or.inr h1, h2.2⟩
      · rintro ⟨rfl | h1, h2⟩
        · exact Or.inl rfl
        · by_cases hax : a = x
          · exact Or.inl hax
          · refine Or.inr ⟨h1, ?_⟩
            push_neg
            exact ⟨hax, h2⟩

theorem mem_dedupFirst {a : String} {l : List String} : a ∈ dedupFirst l ↔ a ∈ l := by
  simp [dedupFirst, mem_dedupFirstAux]

theorem mem_insertStr {a x : String} {l : List String} :
    a ∈ insertStr x l ↔ a = x ∨ a ∈ l := by
  induction l with
  | nil => simp [insertStr]
  | cons y ys ih =>
    by_cases h : lexLt x.data y.data
    · simp [insertStr, h, List.mem_cons]
    · simp only [insertStr, if_neg h, List.mem_cons, ih]
      tauto

theorem mem_sortStr {a : String} {l : List String} : a ∈ sortStr l ↔ a ∈ l := by
  induction l with
  | nil => simp [sortStr]
  | cons x xs ih => simp [sortStr, mem_insertStr, ih, List.mem_cons]

theorem mem_availableRoles {a : String} {profiles : List SSOProfile} {account : String} :
    a ∈ availableRoles profiles account ↔ a ∈ rolesForAccount profiles account := by
  simp [availableRoles, mem_sortStr, mem_dedupFirst]

/-- C1 corrected, stage level: when the trimmed query equals a member of the
stage's candidate set (an account name at the account stage, a role of the
chosen account at the role stage) the stage resolves immediately to that
member, for EVERY scorer — fuzzy scoring is bypassed.  (The `get_best_match` /
`search_accounts` functions themselves have no such exact-match priority; see
the counterexample.) -/
theorem stage_exact_match_priority (scorer : Scorer) (profiles : List SSOProfile)
    (raw choice account_name : String) (hne : ¬ pyStrip raw = "") :
    (pyStrip raw ∈ profiles.map (fun p => p.sso_account_name) →
      ProfileSelector.account_stage scorer profiles raw choice = some (pyStrip raw)) ∧
    (pyStrip raw ∈ rolesForAccount profiles account_name →
      ProfileSelector.role_stage scorer profiles account_name raw choice
        = some (pyStrip raw)) := by
  constructor
  · intro hmem
    have hmem' : pyStrip raw ∈ uniqueAccountNames profiles := by
      simpa [uniqueAccountNames, mem_dedupFirst] using hmem
    simp [ProfileSelector.account_stage, hne, hmem']
  · intro hmem
    have hmem' : pyStrip raw ∈ availableRoles profiles account_name :=
      mem_availableRoles.mpr hmem
    simp [ProfileSelector.role_stage, hne, hmem']

/-- Witness for `stage_exact_match_priority`: an exactly-typed account name and
role name resolve immediately even under a scorer that scores everything 0. -/
theorem stage_exact_match_priority_witness :
    ProfileSelector.account_stage (fun _ _ => 0)
      [⟨"dev-admin", "Development Account", "1", "AdministratorAccess", "u", none⟩]
      "Development Account" "junk" = some "Development Account" ∧
    ProfileSelector.role_stage (fun _ _ => 0)
      [⟨"dev-admin", "Development Account", "1", "AdministratorAccess", "u", none⟩]
      "Development Account" "AdministratorAccess" "junk" = some "AdministratorAccess" := by
  have h := stage_exact_match_priority (fun _ _ => 0)
    [⟨"dev-admin", "Development Account", "1", "AdministratorAccess", "u", none⟩]
    "Development Account" "junk" "Development Account" (by decide)
  have h2 := stage_exact_match_priority (fun _ _ => 0)
    [⟨"dev-admin", "Development Account", "1", "AdministratorAccess", "u", none⟩]
    "AdministratorAccess" "junk" "Development Account" (by decide)
  exact ⟨h.1 (by decide), h2.2 (by decide)⟩

/-- C1 counterexample: `get_best_match` and `search_accounts` have NO
exact-match priority.  With the candidate set `["ABC", "abc"]` and the query
`"abc"` (an exact, case-sensitive member), a decoy that fuzzy-scores 100 and
precedes the exact candidate wins: `get_best_match` returns `("ABC", 100)`,
not `("abc", 100)`, and the ranked list puts the decoy first. -/
theorem bestMatch_exact_decoy_counterexample :
    FuzzySearcher.get_best_match decoyScorer "abc" ["ABC", "abc"] = ("ABC", 100) ∧
    FuzzySearcher.search_accounts decoyScorer
      [⟨"p1", "ABC", "1", "R", "u", none⟩, ⟨"p2", "abc", "2", "R", "u", none⟩]
      "abc" 10 = ["ABC", "abc"] ∧
    ("ABC" : String) ≠ "abc" := by
  refine ⟨by decide, by decide, by decide⟩

/-- C3: at both interactive stages, when the exact-match check fails the stage
consults `get_best_match` over the stage's full candidate set and auto-accepts
its candidate exactly when the score strictly exceeds 70; a best score of 70
or below falls through to the disambiguation branch. -/
theorem high_confidence_accept_threshold (scorer : Scorer) (profiles : List SSOProfile)
    (raw choice account_name : String) (hne : ¬ pyStrip raw = "") :
    (pyStrip raw ∉ uniqueAccountNames profiles →
      (70 < (FuzzySearcher.get_best_match scorer (pyStrip raw)
          (uniqueAccountNames profiles)).2 →
        ProfileSelector.account_stage scorer profiles raw choice
          = some (FuzzySearcher.get_best_match scorer (pyStrip raw)
              (uniqueAccountNames profiles)).1) ∧
      ((FuzzySearcher.get_best_match scorer (pyStrip raw)
          (uniqueAccountNames profiles)).2 ≤ 70 →
        ProfileSelector.account_stage scorer profiles raw choice
          = accountDisambig scorer profiles (pyStrip raw) choice)) ∧
    (pyStrip raw ∉ availableRoles profiles account_name →
      (70 < (FuzzySearcher.get_best_match scorer (pyStrip raw)
          (availableRoles profiles account_name)).2 →
        ProfileSelector.role_stage scorer profiles account_name raw choice
          = some (FuzzySearcher.get_best_match scorer (pyStrip raw)
              (availableRoles profiles account_name)).1) ∧
      ((FuzzySearcher.get_best_match scorer (pyStrip raw)
          (availableRoles profiles account_name)).2 ≤ 70 →
        ProfileSelector.role_stage scorer profiles account_name raw choice
          = roleDisambig scorer profiles account_name (pyStrip raw) choice)) := by
  constructor
  · intro hmem
    constructor
    · intro h70
      simp [ProfileSelector.account_stage, hne, hmem, h70]
    · intro h70
      have h70' : ¬ 70 < (FuzzySearcher.get_best_match scorer (pyStrip raw)
          (uniqueAccountNames profiles)).2 := by omega
      simp [ProfileSelector.account_stage, hne, hmem, h70']
  · intro hmem
    constructor
    · intro h70
      simp [ProfileSelector.role_stage, hne, hmem, h70]
    · intro h70
      have h70' : ¬ 70 < (FuzzySearcher.get_best_match scorer (pyStrip raw)
          (availableRoles profiles account_name)).2 := by omega
      simp [ProfileSelector.role_stage, hne, hmem, h70']

/-- Witness for `high_confidence_accept_threshold`: a scorer giving the right
candidate 71 auto-accepts at both stages; one giving at most 70 falls through
to disambiguation. -/
theorem high_confidence_accept_threshold_witness :
    ProfileSelector.account_stage
      (fun _ c => if c = "Development Account" then 71 else 10)
      [⟨"dev-admin", "Development Account", "1", "AdministratorAccess", "u", none⟩,
       ⟨"prod-admin", "Production Account", "2", "AdministratorAccess", "u", none⟩]
      "Dev" "" = some "Development Account" ∧
    ProfileSelector.role_stage
      (fun _ c => if c = "AdministratorAccess" then 71 else 10)
      [⟨"dev-admin", "Development Account", "1", "AdministratorAccess", "u", none⟩,
       ⟨"prod-admin", "Production Account", "2", "AdministratorAccess", "u", none⟩]
      "Development Account" "Admin" "" = some "AdministratorAccess" := by
  have h1 := high_confidence_accept_threshold
    (fun _ c => if c = "Development Account" then 71 else 10)
    [⟨"dev-admin", "Development Account", "1", "AdministratorAccess", "u", none⟩,
     ⟨"prod-admin", "Production Account", "2", "AdministratorAccess", "u", none⟩]
    "Dev" "" "Development Account" (by decide)
  have h2 := high_confidence_accept_threshold
    (fun _ c => if c = "AdministratorAccess" then 71 else 10)
    [⟨"dev-admin", "Development Account", "1", "AdministratorAccess", "u", none⟩,
     ⟨"prod-admin", "Production Account", "2", "AdministratorAccess", "u", none⟩]
    "Admin" "" "Development Account" (by decide)
  exact ⟨(h1.1 (by decide)).1 (by decide), (h2.2 (by decide)).1 (by decide)⟩

/-- C4 corrected: behaviour of the disambiguation branch at both stages.  The
ranked list is computed with the DEFAULT limit 10 (not 5); a 1-based numeric
index is accepted against the full ranked list; a second non-empty free-text
query is scored by `get_best_match` against the full ranked list and accepted
exactly when the score strictly exceeds 50; an empty ranked list, an
out-of-range index or an empty second input give `none`. -/
theorem disambiguation_branch_spec (scorer : Scorer) (profiles : List SSOProfile)
    (result choice account_name : String) :
    ((FuzzySearcher.search_accounts scorer profiles result 10 = [] →
        accountDisambig scorer profiles result choice = none) ∧
     (FuzzySearcher.search_accounts scorer profiles result 10 ≠ [] →
       (pyIsDigit (pyStrip choice) = true →
          accountDisambig scorer profiles result choice =
            (if 1 ≤ pyInt (pyStrip choice) ∧ pyInt (pyStrip choice) ≤
                (FuzzySearcher.search_accounts scorer profiles result 10).length
             then (FuzzySearcher.search_accounts scorer profiles result 10).get?
                (pyInt (pyStrip choice) - 1)
             else none)) ∧
       (pyIsDigit (pyStrip choice) = false → ¬ pyStrip choice = "" →
          accountDisambig scorer profiles result choice =
            (if 50 < (FuzzySearcher.get_best_match scorer (pyStrip choice)
                (FuzzySearcher.search_accounts scorer profiles result 10)).2
             then some (FuzzySearcher.get_best_match scorer (pyStrip choice)
                (FuzzySearcher.search_accounts scorer profiles result 10)).1
             else none)) ∧
       (pyStrip choice = "" → accountDisambig scorer profiles result choice = none))) ∧
    ((FuzzySearcher.search_roles scorer profiles result account_name 10 = [] →
        roleDisambig scorer profiles account_name result choice = none) ∧
     (FuzzySearcher.search_roles scorer profiles result account_name 10 ≠ [] →
       (pyIsDigit (pyStrip choice) = true →
          roleDisambig scorer profiles account_name result choice =
            (if 1 ≤ pyInt (pyStrip choice) ∧ pyInt (pyStrip choice) ≤
                (FuzzySearcher.search_roles scorer profiles result account_name 10).length
             then (FuzzySearcher.search_roles scorer profiles result account_name 10).get?
                (pyInt (pyStrip choice) - 1)
             else none)) ∧
       (pyIsDigit (pyStrip choice) = false → ¬ pyStrip choice = "" →
          roleDisambig scorer profiles account_name result choice =
            (if 50 < (FuzzySearcher.get_best_match scorer (pyStrip choice)
                (FuzzySearcher.search_roles scorer profiles result account_name 10)).2
             then some (FuzzySearcher.get_best_match scorer (pyStrip choice)
                (FuzzySearcher.search_roles scorer profiles result account_name 10)).1
             else none)) ∧
       (pyStrip choice = "" → roleDisambig scorer profiles account_name result choice = none))) := by
  constructor
  · refine ⟨fun h0 => by simp [accountDisambig, h0], fun hne => ?_⟩
    have hIE : (FuzzySearcher.search_accounts scorer profiles result 10).isEmpty = false := by
      cases hM : FuzzySearcher.search_accounts scorer profiles result 10 with
      | nil => exact absurd hM hne
      | cons a as => rfl
    refine ⟨fun hdig => ?_, fun hdig hce => ?_, fun hce => ?_⟩
    · simp [accountDisambig, hIE, hdig]
    · simp [accountDisambig, hIE, hdig, hce]
    · simp [accountDisambig, hIE, hce, pyIsDigit, pyInt]
  · refine ⟨fun h0 => by simp [roleDisambig, h0], fun hne => ?_⟩
    have hIE : (FuzzySearcher.search_roles scorer profiles result account_name 10).isEmpty
        = false := by
      cases hM : FuzzySearcher.search_roles scorer profiles result account_name 10 with
      | nil => exact absurd hM hne
      | cons a as => rfl
    refine ⟨fun hdig => ?_, fun hdig hce => ?_, fun hce => ?_⟩
    · simp [roleDisambig, hIE, hdig]
    · simp [roleDisambig, hIE, hdig, hce]
    · simp [roleDisambig, hIE, hce, pyIsDigit, pyInt]

/-- Witness for `disambiguation_branch_spec`: with the six-account catalog,
the typed index "3" selects the third ranked entry. -/
theorem disambiguation_branch_spec_witness :
    accountDisambig c4scorer c4profiles "qq" "3" = some "a3" := by
  have h := ((disambiguation_branch_spec c4scorer c4profiles "qq" "3" "acc").1.2
    (by decide)).1 (by decide)
  rw [h]
  decide

/-- C4 counterexample: the ranked list is computed with limit 10, not 5, and a
numeric index is accepted against the FULL ranked list even though the account
stage presents only its first 5 entries: with six candidates scoring 69..64
(no exact match, best 69 is at most 70), the typed index "6" selects the sixth
ranked candidate "a6" — an entry outside the presented 5-entry list, which the
claim (rank with limit 5, index within the presented list) would reject. -/
theorem account_stage_limit_counterexample :
    ProfileSelector.account_stage c4scorer c4profiles "qq" "6" = some "a6" ∧
    (FuzzySearcher.search_accounts c4scorer c4profiles "qq" 10).length = 6 ∧
    "a6" ∉ (FuzzySearcher.search_accounts c4scorer c4profiles "qq" 10).take 5 := by
  refine ⟨by decide, by decide, by decide⟩

/-- C5: `select_profile` on the exact matches of the account and role pair:
zero matches give `none` (no crash), a single match auto-resolves to its
profile name for ANY choice input, several matches accept a 1-based numeric
index into the catalog-ordered match list and any non-digit or out-of-range
choice gives `none` (cancellation, never a raised error); the match list is a
sublist of the catalog, so its order is catalog order. -/
theorem select_profile_spec (profiles : List SSOProfile)
    (account_name role_name choice : String) :
    (matchingProfiles profiles account_name role_name = [] →
      ProfileSelector.select_profile profiles account_name role_name choice = none) ∧
    (∀ p, matchingProfiles profiles account_name role_name = [p] →
      ProfileSelector.select_profile profiles account_name role_name choice
        = some p.profile_name) ∧
    (2 ≤ (matchingProfiles profiles account_name role_name).length →
      (pyIsDigit (pyStrip choice) = true →
        ProfileSelector.select_profile profiles account_name role_name choice =
          (if 1 ≤ pyInt (pyStrip choice) ∧ pyInt (pyStrip choice) ≤
              (matchingProfiles profiles account_name role_name).length
           then ((matchingProfiles profiles account_name role_name).get?
              (pyInt (pyStrip choice) - 1)).map (fun p => p.profile_name)
           else none)) ∧
      (pyIsDigit (pyStrip choice) = false →
        ProfileSelector.select_profile profiles account_name role_name choice = none)) ∧
    List.Sublist (matchingProfiles profiles account_name role_name) profiles := by
  refine ⟨?_, ?_, ?_, List.filter_sublist _⟩
  · intro h
    simp [ProfileSelector.select_profile, h]
  · intro p h
    simp [ProfileSelector.select_profile, h]
  · intro h2
    cases hM : matchingProfiles profiles account_name role_name with
    | nil =>
      rw [hM] at h2
      simp at h2
    | cons p rest =>
      cases rest with
      | nil =>
        rw [hM] at h2
        simp at h2
      | cons q rest2 =>
        constructor
        · intro hdig
          simp [ProfileSelector.select_profile, hM, hdig]
        · intro hdig
          simp [ProfileSelector.select_profile, hM, hdig]

/-- Witness for `select_profile_spec`: zero, one and two matching profiles at
concrete inputs. -/
theorem select_profile_spec_witness :
    ProfileSelector.select_profile
      [⟨"dev-a", "A", "1", "R", "u", none⟩, ⟨"dev-b", "A", "2", "R", "u", none⟩]
      "A" "R" "2" = some "dev-b" ∧
    ProfileSelector.select_profile [⟨"dev-a", "A", "1", "R", "u", none⟩]
      "A" "R" "" = some "dev-a" ∧
    ProfileSelector.select_profile ([] : List SSOProfile) "A" "R" "junk" = none := by
  refine ⟨?_, ?_, ?_⟩
  · have h := ((select_profile_spec
      [⟨"dev-a", "A", "1", "R", "u", none⟩, ⟨"dev-b", "A", "2", "R", "u", none⟩]
      "A" "R" "2").2.2.1 (by decide)).1 (by decide)
    rw [h]
    decide
  · exact (select_profile_spec [⟨"dev-a", "A", "1", "R", "u", none⟩] "A" "R" "").2.1
      ⟨"dev-a", "A", "1", "R", "u", none⟩ (by decide)
  · exact (select_profile_spec ([] : List SSOProfile) "A" "R" "junk").1 (by decide)

/-- The surviving names of the history filter are exactly the recent names
(first 5) that still have a profile in the catalog. -/
theorem filterMap_find_names (profiles : List SSOProfile) (l : List String) :
    (l.filterMap (fun name => (profiles.find? (fun p => p.profile_name = name)).map
        (fun p => (name, p.sso_account_name)))).map (fun pr => pr.1)
      = l.filter (fun name =>
          (profiles.find? (fun p => p.profile_name = name)).isSome) := by
  induction l with
  | nil => rfl
  | cons x xs ih =>
    cases hf : profiles.find? (fun p => p.profile_name = x) with
    | none => simp [List.filterMap_cons, List.filter_cons, hf, ih]
    | some p => simp [List.filterMap_cons, List.filter_cons, hf, ih]

/-- C6 corrected: the history-seeded entry point takes at most 5 recent
names, keeps exactly those that still map to a catalog profile, pairs each
survivor with its profile's ACCOUNT name, and choosing history entry `i` is
equivalent to typing that account name at the account prompt — the role stage
is entered with an empty initial query either way, so the profile's role is
NOT pre-seeded (see the counterexample). -/
theorem history_seeding_spec (scorer : Scorer) (profiles : List SSOProfile)
    (recent : List String) (ac rt rc pc : String) :
    (validRecent profiles recent).length ≤ 5 ∧
    ((validRecent profiles recent).map (fun pr => pr.1)
      = (recent.take 5).filter (fun name =>
          (profiles.find? (fun p => p.profile_name = name)).isSome)) ∧
    (∀ pr ∈ validRecent profiles recent, ∃ p, p ∈ profiles ∧
        p.profile_name = pr.1 ∧ p.sso_account_name = pr.2) ∧
    (∀ i pr, (validRecent profiles recent).get? i = some pr →
      AWSProfileSwitcher.run scorer profiles recent ⟨.history i, ac, rt, rc, pc⟩
        = AWSProfileSwitcher.run scorer profiles recent ⟨.typed pr.2, ac, rt, rc, pc⟩) := by
  refine ⟨?_, filterMap_find_names profiles (recent.take 5), ?_, ?_⟩
  · calc (validRecent profiles recent).length
        ≤ (recent.take 5).length := List.length_filterMap_le _ _
      _ ≤ 5 := List.length_take_le _ _
  · intro pr hpr
    rcases List.mem_filterMap.mp hpr with ⟨name, _, hsome⟩
    rcases Option.map_eq_some'.mp hsome with ⟨p, hfind, rfl⟩
    exact ⟨p, List.mem_of_find?_eq_some hfind, by simpa using List.find?_some hfind, rfl⟩
  · intro i pr hget
    have hget' : (validRecent profiles recent)[i]? = some pr := by
      simpa [List.get?_eq_getElem?] using hget
    simp [AWSProfileSwitcher.run, sessionPipeline, submittedAccountText, hget']

/-- Witness for `history_seeding_spec`: selecting history entry 0 behaves like
typing the seeded account name; stale names are dropped. -/
theorem history_seeding_spec_witness :
    AWSProfileSwitcher.run (fun _ _ => 0) [devAdmin] ["dev-admin"]
        ⟨.history 0, "", "AdministratorAccess", "", ""⟩
      = AWSProfileSwitcher.run (fun _ _ => 0) [devAdmin] ["dev-admin"]
        ⟨.typed "Development Account", "", "AdministratorAccess", "", ""⟩ ∧
    (validRecent [devAdmin] ["dev-admin", "stale"]).map (fun pr => pr.1) = ["dev-admin"] := by
  constructor
  · exact (history_seeding_spec (fun _ _ => 0) [devAdmin] ["dev-admin"]
      "" "AdministratorAccess" "" "").2.2.2 0 ("dev-admin", "Development Account") (by decide)
  · have h := (history_seeding_spec (fun _ _ => 0) [devAdmin] ["dev-admin", "stale"]
      "" "" "" "").2.1
    rw [h]
    decide

/-- C6 counterexample: choosing the history entry "dev-admin" (whose profile
role is "AdministratorAccess") does NOT pre-seed the role stage: with nothing
typed at the role prompt the run is cancelled (`.ok none`) instead of
resolving, and it resolves to "dev-admin" only when the role name is typed as
free text — the claim's direct transition into a role-pre-seeded stage does
not happen. -/
theorem history_role_preseed_counterexample :
    AWSProfileSwitcher.run (fun _ _ => 0) [devAdmin] ["dev-admin"]
      ⟨.history 0, "", "", "", ""⟩ = .ok none ∧
    AWSProfileSwitcher.run (fun _ _ => 0) [devAdmin] ["dev-admin"]
      ⟨.history 0, "", "AdministratorAccess", "", ""⟩ = .ok (some "dev-admin") := by
  constructor
  · rfl
  · rfl

/-- C8 corrected: ranking is a pure, deterministic function of the candidate
SEQUENCE the matcher receives: the stable sort permutes the scored sequence,
orders it by non-increasing score, and candidates of equal score keep exactly
the relative order of the received sequence.  The code materialises that
sequence from an unordered Python set, so tie order follows the set's
iteration order, not catalog insertion order (see the counterexample). -/
theorem ranking_stable_in_received_order (scorer : Scorer) (q : String)
    (cands : List String) (s : Nat) :
    (sortDesc (cands.map (fun c => (c, scorer q c)))).Perm
        (cands.map (fun c => (c, scorer q c))) ∧
    (sortDesc (cands.map (fun c => (c, scorer q c)))).Pairwise (fun a b => b.2 ≤ a.2) ∧
    (sortDesc (cands.map (fun c => (c, scorer q c)))).filter (fun p => p.2 = s)
      = (cands.map (fun c => (c, scorer q c))).filter (fun p => p.2 = s) :=
  ⟨sortDesc_perm _, sortDesc_pairwise _, sortDesc_stable _ s⟩

/-- C8 counterexample: two candidate sequences carrying the SAME multiset
(two orders the unordered set may materialise as) produce different ranked
sequences and different best matches when scores tie, so the output is not a
function of the candidate multiset alone. -/
theorem ranking_multiset_counterexample :
    (["A", "B"] : List String).Perm ["B", "A"] ∧
    extractFiltered (fun _ _ => 50) "q" ["A", "B"] 10 = ["A", "B"] ∧
    extractFiltered (fun _ _ => 50) "q" ["B", "A"] 10 = ["B", "A"] ∧
    FuzzySearcher.get_best_match (fun _ _ => 50) "q" ["A", "B"] = ("A", 50) ∧
    FuzzySearcher.get_best_match (fun _ _ => 50) "q" ["B", "A"] = ("B", 50) ∧
    (["A", "B"] : List String) ≠ ["B", "A"] := by
  refine ⟨List.Perm.swap "B" "A" [], by decide, by decide, by decide, by decide, by decide⟩

/-- C10: with an empty parsed catalog, `run` raises `NoSSOProfilesFoundError`
independently of every interactive input — no search or selection stage is
consulted — and with a non-empty catalog it enters the three-stage pipeline
instead of raising. -/
theorem run_empty_catalog_raises (scorer : Scorer) (parsed : List SSOProfile)
    (recent recent' : List String) (inp inp' : RunInputs) :
    AWSProfileSwitcher.run scorer [] recent inp = .error .noSSOProfilesFound ∧
    AWSProfileSwitcher.run scorer [] recent inp
      = AWSProfileSwitcher.run scorer [] recent' inp' ∧
    (parsed ≠ [] →
      AWSProfileSwitcher.run scorer parsed recent inp
        = .ok (sessionPipeline scorer parsed recent inp)) := by
  refine ⟨rfl, rfl, fun h => ?_⟩
  have hIE : parsed.isEmpty = false := by
    cases parsed with
    | nil => exact absurd rfl h
    | cons p ps => rfl
  simp [AWSProfileSwitcher.run, hIE]

/-- Witness for `run_empty_catalog_raises`: with a one-profile catalog the run
is the pipeline value, and with an empty catalog it is the error. -/
theorem run_empty_catalog_raises_witness :
    AWSProfileSwitcher.run (fun _ _ => 0) [devAdmin] []
        ⟨.typed "", "", "", "", ""⟩
      = .ok (sessionPipeline (fun _ _ => 0) [devAdmin] [] ⟨.typed "", "", "", "", ""⟩) ∧
    AWSProfileSwitcher.run (fun _ _ => 0) [] [] ⟨.typed "", "", "", "", ""⟩
      = .error .noSSOProfilesFound := by
  have h := run_empty_catalog_raises (fun _ _ => 0) [devAdmin] [] []
    ⟨.typed "", "", "", "", ""⟩ ⟨.typed "", "", "", "", ""⟩
  exact ⟨h.2.2 (by decide), h.1⟩

end AwsProfileSwitch
